import Mathlib

/-!
Verification of the azure-b2c-ief Terraform provider core.

This file gives a shallow embedding of the provider's key-container
reconciler (resource_policy_key.go) and policy templating engine
(resource_policy.go), and proves or refutes the frozen specification
claims about them.

Conventions of the embedding:
- Terraform framework attribute values (`types.String`, `types.Int64`)
  are modelled as small inductives with null / unknown / value states;
  `ValueString` / `ValueInt64` return the Go zero value on null/unknown,
  exactly as the framework does.
- The Directory Client (Microsoft Graph over HTTP) is an external
  collaborator: each reconciler step takes the remote response as an
  explicit argument (`Except String GraphResponse`, where `.error` is a
  transport failure carrying the error message).
- JSON decoding of response bodies (encoding/json) is external; the
  decoded keyset id is passed in as `Option String` (`none` = decode
  error).
- Go strings are `String`; text algorithms work over `List Char`.
-/

namespace B2C

/-- Model of terraform-plugin-framework `types.String`. -/
inductive TFString where
  | null
  | unknown
  | str (s : String)
deriving DecidableEq, Repr

/-- Model of terraform-plugin-framework `types.Int64`. -/
inductive TFInt64 where
  | null
  | unknown
  | int (v : Int)
deriving DecidableEq, Repr

/-- Go `types.String.ValueString()`: the value, or "" when null/unknown. -/
def valueString : TFString → String
  | .str s => s
  | _ => ""

/-- Go `types.String.IsNull()`. -/
def tfIsNull : TFString → Bool
  | .null => true
  | _ => false

/-- Go `types.Int64.ValueInt64()`: the value, or 0 when null/unknown. -/
def valueInt64 : TFInt64 → Int
  | .int v => v
  | _ => 0

/-- Go `types.Int64.IsNull()`. -/
def int64IsNull : TFInt64 → Bool
  | .null => true
  | _ => false

/-- `PolicyKeyUpload` from resource_policy_key.go. -/
structure PolicyKeyUpload where
  Value : TFString
  ValueVersion : TFInt64
deriving DecidableEq, Repr

/-- `PolicyKeyGenerate` from resource_policy_key.go (`Type` field). -/
structure PolicyKeyGenerate where
  type : TFString
deriving DecidableEq, Repr

/-- `PolicyKeyModel` from resource_policy_key.go. `Upload`/`Generate`
are nilable pointers, modelled with `Option`. -/
structure PolicyKeyModel where
  ID : TFString
  Name : TFString
  Usage : TFString
  Upload : Option PolicyKeyUpload
  Generate : Option PolicyKeyGenerate
deriving DecidableEq, Repr

/-- The zero `PolicyKeyModel{}` passed as prior state on Create. -/
def emptyModel : PolicyKeyModel :=
  { ID := .null, Name := .null, Usage := .null, Upload := none, Generate := none }

/-- `sanitizeWriteOnlyFields` from resource_policy_key.go: if the upload
block is present, rebuild it with the version kept and the write-only
value forced to null; otherwise leave the model untouched. -/
def sanitizeWriteOnlyFields (data : PolicyKeyModel) : PolicyKeyModel :=
  match data.Upload with
  | some u => { data with Upload := some { Value := .null, ValueVersion := u.ValueVersion } }
  | none => data

/-- `sanitizeLegacyState` from resource_policy_key.go: null out a
non-null write-only value found in a persisted snapshot. -/
def sanitizeLegacyState (data : PolicyKeyModel) : PolicyKeyModel :=
  match data.Upload with
  | some u =>
    if !(tfIsNull u.Value) then
      { data with Upload := some { u with Value := .null } }
    else data
  | none => data

/-- A remote call issued by `uploadOrGenerate` (the POST body and the
keyset id interpolated into the endpoint URL). -/
inductive GraphRequest where
  | generateKey (keysetId usage kty : String)
  | uploadSecret (keysetId usage secret : String)
deriving DecidableEq, Repr

/-- The decision `uploadOrGenerate` reaches before any remote call:
an error, a no-op, or a Directory Client request. `nilDeref` models the
Go nil-pointer panic when `data.Upload` is set but `configData.Upload`
is nil (unreachable from the call sites, which pass the same model for
both). -/
inductive UoGStep where
  | validationError (msg : String)
  | invariantError (msg : String)
  | nilDeref
  | noop
  | request (req : GraphRequest)
deriving DecidableEq, Repr

/-- Decision phase of `PolicyKeyResource.uploadOrGenerate`
(resource_policy_key.go): validates the version marker, decides whether
an upload is needed, and names the remote call to make, mirroring the
source control flow before `doGraph` is reached. -/
def uploadOrGenerateStep (data configData stateData : PolicyKeyModel) : UoGStep :=
  match data.Generate with
  | some g =>
    .request (.generateKey (valueString data.ID) (valueString data.Usage) (valueString g.type))
  | none =>
    match data.Upload with
    | none => .invariantError "No provisioning method specified OR an invalid block was given"
    | some _ =>
      match configData.Upload with
      | none => .nilDeref
      | some cu =>
        if !(int64IsNull cu.ValueVersion) && decide (valueInt64 cu.ValueVersion < 0)
            && decide (valueInt64 cu.ValueVersion ≠ -1) then
          .validationError "value_version must be -1 or >= 0"
        else
          let stateVer : Int :=
            match stateData.Upload with
            | some su => valueInt64 su.ValueVersion
            | none => 0
          let shouldUpload : Bool :=
            int64IsNull cu.ValueVersion
              || decide (valueInt64 cu.ValueVersion = -1)
              || (decide (0 ≤ valueInt64 cu.ValueVersion)
                  && stateData.Upload.isSome
                  && decide (valueInt64 cu.ValueVersion ≠ stateVer))
          if shouldUpload then
            if tfIsNull cu.Value then
              .validationError "upload.value cannot be null when upload block is specified"
            else
              .request (.uploadSecret (valueString data.ID) (valueString data.Usage)
                (valueString cu.Value))
          else .noop

/-- An HTTP response from the Directory Client: status code, status
line text, and body. -/
structure GraphResponse where
  status : Nat
  statusText : String
  body : String
deriving DecidableEq, Repr

/-- Full result of `uploadOrGenerate`: `none` on success (including the
version-gated no-op), `some msg` when it returns an error. The remote
response for the request (if one is issued) is an input. -/
def uploadOrGenerateResult (data configData stateData : PolicyKeyModel)
    (resp : Except String GraphResponse) : Option String :=
  match uploadOrGenerateStep data configData stateData with
  | .noop => none
  | .validationError m => some m
  | .invariantError m => some m
  | .nilDeref => some "runtime error: invalid memory address or nil pointer dereference"
  | .request _ =>
    match resp with
    | .error e => some e
    | .ok r => if r.status ≠ 200 then some r.body else none

/-- One diagnostic added via `resp.Diagnostics.AddError`. -/
structure Diag where
  summary : String
  detail : String
deriving DecidableEq, Repr

/-- Outcome of one reconciler operation: the diagnostics reported, the
snapshot passed to `resp.State.Set` (if any), and whether
`resp.State.RemoveResource` was called. -/
structure OpResult where
  diags : List Diag
  persisted : Option PolicyKeyModel
  removed : Bool
deriving DecidableEq, Repr

/-- `PolicyKeyResource.Create` (resource_policy_key.go) after the
config has been decoded: issue create-keyset, abort on transport error
or a non-201 status or an undecodable/empty keyset id; otherwise store
the assigned id, provision via `uploadOrGenerate` (with the same model
as data and config and a zero prior state), report but do not abort on
a provisioning error, sanitize, and persist. `parsedId` is the
JSON-decoded `id` field of the create response (`none` = decode error). -/
def createStep (data : PolicyKeyModel) (createResp : Except String GraphResponse)
    (parsedId : Option String) (uploadResp : Except String GraphResponse) : OpResult :=
  match createResp with
  | .error e => { diags := [⟨"Create keyset failed", e⟩], persisted := none, removed := false }
  | .ok r =>
    if r.status ≠ 201 then
      { diags := [⟨"Create keyset failed", r.body⟩], persisted := none, removed := false }
    else
      match parsedId with
      | none => { diags := [⟨"Create keyset failed", r.body⟩], persisted := none, removed := false }
      | some id =>
        if id = "" then
          { diags := [⟨"Create keyset failed", r.body⟩], persisted := none, removed := false }
        else
          { diags :=
              match uploadOrGenerateResult { data with ID := .str id } { data with ID := .str id }
                  emptyModel uploadResp with
              | some msg => [⟨"Error creating or uploading policy key", msg⟩]
              | none => [],
            persisted := some (sanitizeWriteOnlyFields { data with ID := TFString.str id }),
            removed := false }

/-- Case-sensitive test that `pat` starts the list `s`. -/
def startsWithExact : List Char → List Char → Bool
  | [], _ => true
  | _ :: _, [] => false
  | p :: ps, c :: cs => (p == c) && startsWithExact ps cs

/-- Case-sensitive substring test, as Go's `strings.Contains`. -/
def occursSub (pat : List Char) : List Char → Bool
  | [] => startsWithExact pat []
  | c :: rest => startsWithExact pat (c :: rest) || occursSub pat rest

/-- Go `strings.Contains(s, sub)`. -/
def strContains (s sub : String) : Bool := occursSub sub.toList s.toList

/-- Version-marker merge of `PolicyKeyResource.Read`: re-read the raw
persisted state (`currentState`, identical to the state the method
decoded at entry) and graft its upload version onto the snapshot when
the snapshot lost its upload block. -/
def readMergeVersion (data currentState : PolicyKeyModel) : PolicyKeyModel :=
  if currentState.Upload.isSome = true ∧ data.Upload = none then
    { data with
      Upload := some ⟨.null, (currentState.Upload.getD ⟨.null, .null⟩).ValueVersion⟩ }
  else data

/-- `PolicyKeyResource.Read` (resource_policy_key.go) after the state
has been decoded: legacy-state remediation, remote GET, drift removal
on the provider-specific not-found code, error (without early return)
on any other non-success, abort on a body that fails to decode, then
version-marker merge, sanitization and persist. `parseOk` is whether
the JSON decode of the body succeeded. -/
def readStep (stateData : PolicyKeyModel) (resp : Except String GraphResponse)
    (parseOk : Bool) : OpResult :=
  match resp with
  | .error e => { diags := [⟨"Read keysets failed", e⟩], persisted := none, removed := false }
  | .ok r =>
    if r.status ≠ 200 ∧ strContains r.body "AADB2C90073" = true then
      { diags := [], persisted := none, removed := true }
    else
      if parseOk = false then
        { diags := (if r.status ≠ 200 then [⟨"Graph returned " ++ r.statusText, r.body⟩] else [])
            ++ [⟨"Error parsing graph response!", "The response was: " ++ r.body⟩],
          persisted := none, removed := false }
      else
        { diags := (if r.status ≠ 200 then [⟨"Graph returned " ++ r.statusText, r.body⟩] else []),
          persisted := some (sanitizeWriteOnlyFields
            (readMergeVersion (sanitizeLegacyState stateData) stateData)),
          removed := false }

/-- Snapshot rebuild of `PolicyKeyResource.Update`: identifier, name,
usage and the generate block are taken from the config; the upload
block keeps the config's version marker (or, when the config has no
upload block, the remediated state's) with an explicitly null value. -/
def rebuildUpdateModel (configData stateData1 : PolicyKeyModel) : PolicyKeyModel :=
  { ID := configData.ID, Name := configData.Name, Usage := configData.Usage,
    Generate := configData.Generate,
    Upload :=
      match configData.Upload with
      | some cu => some { Value := .null, ValueVersion := cu.ValueVersion }
      | none =>
        match stateData1.Upload with
        | some su => some { Value := .null, ValueVersion := su.ValueVersion }
        | none => none }

/-- `PolicyKeyResource.Update` (resource_policy_key.go) after config and
state have been decoded: legacy-state remediation, `uploadOrGenerate`
against config vs. state (abort on its error), snapshot rebuild,
sanitization and persist. -/
def updateStep (configData stateData : PolicyKeyModel)
    (uploadResp : Except String GraphResponse) : OpResult :=
  match uploadOrGenerateResult configData configData (sanitizeLegacyState stateData)
      uploadResp with
  | some msg =>
    { diags := [⟨"Error updating or uploading policy key", msg⟩],
      persisted := none, removed := false }
  | none =>
    { diags := [],
      persisted := some (sanitizeWriteOnlyFields
        (rebuildUpdateModel configData (sanitizeLegacyState stateData))),
      removed := false }

/-- Result of `PolicyKeyResource.Delete`: the delete-container calls
issued (by keyset id interpolated into the URL) and the diagnostics. -/
structure DeleteResult where
  calls : List String
  diags : List Diag
deriving DecidableEq, Repr

/-- `PolicyKeyResource.Delete` (resource_policy_key.go) after the state
has been decoded: legacy-state remediation, then the DELETE call is
always issued with the state's id; transport failures and statuses
other than 204 are reported as errors. -/
def deleteStep (stateData : PolicyKeyModel)
    (resp : Except String GraphResponse) : DeleteResult :=
  match resp with
  | .error e =>
    { calls := [valueString (sanitizeLegacyState stateData).ID],
      diags := [⟨"Delete failed", e⟩] }
  | .ok r =>
    if r.status ≠ 204 then
      { calls := [valueString (sanitizeLegacyState stateData).ID],
        diags := [⟨"Graph returned " ++ r.statusText, r.body⟩] }
    else { calls := [valueString (sanitizeLegacyState stateData).ID], diags := [] }

/-- Canonical representative of a character's RE2 simple-case-folding
orbit, for the orbits that meet ASCII: ASCII letters fold to lower
case, and the two non-ASCII characters that fold together with ASCII
letters (U+212A KELVIN SIGN with k, U+017F LATIN SMALL LETTER LONG S
with s) fold to them; every other character represents itself. For a
pattern made of plain ASCII characters this is exactly Go's `(?i)`
matching. -/
def goFold (c : Char) : Char :=
  if c = Char.ofNat 0x212A then 'k'
  else if c = Char.ofNat 0x17F then 's'
  else c.toLower

/-- Case-insensitive test that `pat` starts the list `s`, under the
case folding a Go `(?i)` literal pattern performs. -/
def ciStartsWith : List Char → List Char → Bool
  | [], _ => true
  | _ :: _, [] => false
  | p :: ps, c :: cs => (goFold p == goFold c) && ciStartsWith ps cs

/-- Case-insensitive substring test. -/
def occursCI (pat : List Char) : List Char → Bool
  | [] => ciStartsWith pat []
  | c :: rest => ciStartsWith pat (c :: rest) || occursCI pat rest

/-- Character class of `$name` references in a Go regexp replacement
template: ASCII letters, digits and underscore. -/
def templNameChar (c : Char) : Bool := c.isAlphanum || c == '_'

/-- Longest run of reference-name characters at the head of a list, and
the remainder. -/
def takeNameChars : List Char → List Char × List Char
  | [] => ([], [])
  | c :: rest =>
    if templNameChar c then
      let p := takeNameChars rest
      (c :: p.1, p.2)
    else ([], c :: rest)

/-- The opening brace character. -/
def openBrace : Char := Char.ofNat 123

/-- The closing brace character. -/
def closeBrace : Char := Char.ofNat 125

/-- Parse the reference after a `$` in a Go replacement template:
either `name` or a brace-delimited name; `none` when malformed (the `$`
is then copied literally). Models `regexp.extract`. -/
def extractRef (l : List Char) : Option (List Char × List Char) :=
  match l with
  | [] => none
  | c :: rest =>
    if c = openBrace then
      let p := takeNameChars rest
      if p.1.isEmpty then none
      else
        match p.2 with
        | d :: r2 => if d = closeBrace then some (p.1, r2) else none
        | [] => none
    else
      let p := takeNameChars l
      if p.1.isEmpty then none else some (p.1, p.2)

/-- Value of one reference for our patterns, which have only the
unnamed group 0: an all-zero number yields the whole match, any other
number or name yields nothing. -/
def expandRef (m : List Char) (name : List Char) : List Char :=
  if name.isEmpty then []
  else if name.all (fun c => c == '0') then m else []

/-- Fuelled worker for Go replacement-template expansion (`m` is the
matched text). Fuel is the template length; every step strictly
consumes template, so the fuel never runs out. A lone trailing `$` and
a `$` followed by a malformed reference are copied literally; `$$` is a
literal `$`. -/
def expandGo (m : List Char) : Nat → List Char → List Char
  | 0, t => t
  | _ + 1, [] => []
  | _ + 1, [c] => if c = '$' then ['$'] else [c]
  | fuel + 1, c :: d :: rest =>
    if c = '$' then
      if d = '$' then '$' :: expandGo m fuel rest
      else
        match extractRef (d :: rest) with
        | some nr => expandRef m nr.1 ++ expandGo m fuel nr.2
        | none => '$' :: expandGo m fuel (d :: rest)
    else c :: expandGo m fuel (d :: rest)

/-- Go regexp replacement-template expansion of `t` against matched
text `m` (`Regexp.expand` for a pattern with no capture groups). -/
def expandTempl (m t : List Char) : List Char := expandGo m t.length t

/-- Fuelled worker for the replace-all: the fuel is the subject length,
and every recursive call strictly shortens the subject, so the fuel
never runs out. -/
def replaceAllCIGo (pat rep : List Char) : Nat → List Char → List Char
  | 0, s => s
  | _ + 1, [] => []
  | fuel + 1, c :: rest =>
    if pat.isEmpty then c :: rest
    else if ciStartsWith pat (c :: rest) then
      expandTempl (List.take pat.length (c :: rest)) rep
        ++ replaceAllCIGo pat rep fuel (List.drop (pat.length - 1) rest)
    else c :: replaceAllCIGo pat rep fuel rest

/-- Replace every leftmost non-overlapping case-insensitive occurrence
of `pat` in `s` by the expansion of the replacement template `rep`:
`regexp.MustCompile("(?i)" + quoted pattern).ReplaceAllString(s, rep)`
for a pattern that is a literal after the `(?i)` flag. -/
def replaceAllCI (pat rep s : List Char) : List Char :=
  replaceAllCIGo pat rep s.length s

/-- The placeholder pattern for setting name `k`, as the source builds
it: the literal text of the regex `\{settings:NAME\}`. -/
def placeholder (k : List Char) : List Char :=
  openBrace :: "settings:".toList ++ k ++ [closeBrace]

/-- `isNullOrEmpty` from resource_policy.go. -/
def isNullOrEmptyTF : TFString → Bool
  | .null => true
  | .unknown => true
  | .str s => s == ""

/-- RE2 metacharacters (taken conservatively: every character that can
carry syntactic meaning somewhere in a pattern). A setting name
containing one of these is interpolated unescaped into the pattern, so
the compiled regex is no longer the literal placeholder text — or does
not compile at all. -/
def regexMeta (c : Char) : Bool :=
  c == '\\' || c == '^' || c == '$' || c == '.' || c == '|' || c == '?' || c == '*'
    || c == '+' || c == '(' || c == ')' || c == '[' || c == ']'
    || c == openBrace || c == closeBrace

/-- Setting names in the modelled fragment: ASCII and free of RE2
metacharacters, so the interpolated pattern compiles and matches
exactly the literal placeholder text case-insensitively. -/
def plainKey (k : List Char) : Bool :=
  k.all (fun c => decide (c.toNat < 128) && !regexMeta c)

/-- One iteration of `injectAppSettings` over the settings mapping: a
name outside the plain fragment makes the whole run unmodelled
(`none`), since the source interpolates the name unescaped and the
compiled pattern is then a different matcher or a MustCompile panic
(`goPatternOk`); a null/unknown/empty value is skipped; otherwise the
placeholder is replaced everywhere, the value used as a Go replacement
template. -/
def injectAppSettingsStep (acc : Option (List Char)) (kv : String × TFString) :
    Option (List Char) :=
  match acc with
  | none => none
  | some result =>
    if plainKey kv.1.toList then
      if isNullOrEmptyTF kv.2 then some result
      else some (replaceAllCI (placeholder kv.1.toList) (valueString kv.2).toList result)
    else none

/-- `injectAppSettings` from resource_policy.go: fold over the settings
mapping (Go map iteration order fixed as the list order). The model is
partial: it returns `some` only when every setting name is plain
(`plainKey`), the fragment on which the dynamically compiled pattern
`(?i)\{settings:NAME\}` is a case-insensitive literal; a name with
regex metacharacters falls outside the model (`none`). -/
def injectAppSettings (xml : List Char) (settings : List (String × TFString)) :
    Option (List Char) :=
  settings.foldl injectAppSettingsStep (some xml)

/-- Scan of a regex pattern counting unescaped parentheses; balance is
a necessary condition for RE2 compilation, so a `false` here means
`regexp.MustCompile` panics on the pattern. -/
def parenScan : Int → List Char → Bool
  | depth, [] => depth == 0
  | _depth, '\\' :: [] => false
  | depth, '\\' :: _ :: rest => parenScan depth rest
  | depth, '(' :: rest => parenScan (depth + 1) rest
  | depth, ')' :: rest => if depth == 0 then false else parenScan (depth - 1) rest
  | depth, _ :: rest => parenScan depth rest

/-- The exact regex pattern text the source interpolates the setting
name into: the characters of `(?i)\{settings:NAME\}`. -/
def regexPatternChars (k : List Char) : List Char :=
  '(' :: '?' :: 'i' :: ')' :: '\\' :: openBrace :: "settings:".toList ++ k ++ ['\\', closeBrace]

/-- Necessary syntactic validity of the compiled pattern for key `k`
(balanced unescaped parentheses). `false` means `regexp.MustCompile`
panics at run time. -/
def goPatternOk (k : List Char) : Bool := parenScan 0 (regexPatternChars k)

/-- `injectAppSettings` with the `regexp.MustCompile` panic made
explicit: `none` when some setting name yields a pattern that cannot
compile (the compile runs before the null/empty skip, as in the
source). -/
def injectAppSettingsChecked (xml : List Char) (settings : List (String × TFString)) :
    Option (List Char) :=
  settings.foldl
    (fun acc kv =>
      match acc with
      | none => none
      | some result =>
        if goPatternOk kv.1.toList = false then none
        else if isNullOrEmptyTF kv.2 then some result
        else some (replaceAllCI (placeholder kv.1.toList) (valueString kv.2).toList result))
    (some xml)

/-- Hypothesis under which a further injector pass cannot change a
string: every setting is skipped or its placeholder does not occur
case-insensitively in `s`. -/
def keptPatternsAbsent (settings : List (String × TFString)) (s : List Char) : Bool :=
  settings.all (fun kv => isNullOrEmptyTF kv.2 || !occursCI (placeholder kv.1.toList) s)

/-- One token yielded by the XML decoder. The tokenizer (encoding/xml)
is external: `getPolicyId` consumes whatever stream it yields. A
start-element token carries its local name and its attributes as
(local name, value) pairs; all other token kinds (char data, end
elements, comments, directives, ...) are `other`. A decoder error —
including plain end of input and any malformed-XML parse error — simply
ends the stream, so a malformed document is a truncated stream. -/
inductive XmlTok where
  | start (name : String) (attrs : List (String × String))
  | other
deriving DecidableEq, Repr

/-- Whether a token is a start element. -/
def isStartTok : XmlTok → Bool
  | .start _ _ => true
  | .other => false

/-- The attribute loop of `getPolicyId`: the accumulator is overwritten
by every attribute whose local name is `PolicyId`. -/
def scanPolicyIdAttrs (result : String) (attrs : List (String × String)) : String :=
  attrs.foldl (fun r a => if a.1 = "PolicyId" then a.2 else r) result

/-- `getPolicyId` from resource_policy.go, over the decoder's token
stream: skip non-start tokens; on the first start element scan its
attributes and return immediately; return the result found so far
(always "") when the stream ends, which covers both end of input and a
parse error from malformed XML. -/
def getPolicyId : List XmlTok → String
  | [] => ""
  | XmlTok.start _ attrs :: _ => scanPolicyIdAttrs "" attrs
  | XmlTok.other :: rest => getPolicyId rest

/-- Whether an attribute list has no attribute named `PolicyId`. -/
def noPolicyIdAttr (attrs : List (String × String)) : Bool :=
  attrs.all (fun a => !(a.1 == "PolicyId"))

/-- Definition following the spec's words (claims C2/C3, spec section
4.4): an upload is required when the desired version marker is absent,
or equals the sentinel -1, or is nonnegative and differs from the
last-persisted version, where an absent last-persisted version (the
create case) also requires an upload. `lastPersisted` is `none` when no
upload spec was persisted. -/
def specUploadRequired (desired : Option Int) (lastPersisted : Option Int) : Bool :=
  match desired with
  | none => true
  | some v =>
    decide (v = -1)
      || (decide (0 ≤ v)
          && (match lastPersisted with
              | none => true
              | some lv => decide (v ≠ lv)))

/-! Concrete fixtures used by the witnesses and counterexamples. -/

/-- An upload-mode model: secret present, version marker 1. -/
def cUploadV1 : PolicyKeyModel :=
  ⟨.str "kid", .str "k", .str "sig", some ⟨.str "s3cret", .int 1⟩, none⟩

/-- Same model with version marker 2. -/
def cUploadV2 : PolicyKeyModel :=
  { cUploadV1 with Upload := some ⟨.str "s3cret", .int 2⟩ }

/-- Same model with the version marker absent. -/
def cUploadAbs : PolicyKeyModel :=
  { cUploadV1 with Upload := some ⟨.str "s3cret", .null⟩ }

/-- Same model with the forced-upload sentinel -1. -/
def cUploadM1 : PolicyKeyModel :=
  { cUploadV1 with Upload := some ⟨.str "s3cret", .int (-1)⟩ }

/-- Same model with the invalid version marker -2. -/
def cUploadM2 : PolicyKeyModel :=
  { cUploadV1 with Upload := some ⟨.str "s3cret", .int (-2)⟩ }

/-- Upload-mode model whose secret value is absent, version marker 1. -/
def cNullVal1 : PolicyKeyModel :=
  { cUploadV1 with Upload := some ⟨.null, .int 1⟩ }

/-- Upload-mode model whose secret value and version are both absent. -/
def cNullValAbs : PolicyKeyModel :=
  { cUploadV1 with Upload := some ⟨.null, .null⟩ }

/-- A persisted prior state whose upload version marker is 1. -/
def cStatePrior1 : PolicyKeyModel :=
  { emptyModel with Upload := some ⟨.null, .int 1⟩ }

/-- Settings mapping with a plain, metacharacter-free name whose value
contains its own placeholder (case-insensitively). -/
def cSelfSettings : List (String × TFString) := [("A", .str "{settings:a}x")]

/-! Helper lemmas. -/

theorem sanitize_upload_null (m : PolicyKeyModel) (u : PolicyKeyUpload)
    (h : (sanitizeWriteOnlyFields m).Upload = some u) : u.Value = TFString.null := by
  unfold sanitizeWriteOnlyFields at h
  cases hm : m.Upload with
  | some v =>
    rw [hm] at h
    simp only [Option.some.injEq] at h
    rw [← h]
  | none =>
    rw [hm] at h
    simp only at h
    rw [hm] at h
    exact absurd h (by simp)

theorem sanitize_keeps_ID (m : PolicyKeyModel) :
    (sanitizeWriteOnlyFields m).ID = m.ID := by
  unfold sanitizeWriteOnlyFields
  cases m.Upload <;> rfl

theorem sanitizeLegacy_keeps_ID (m : PolicyKeyModel) :
    (sanitizeLegacyState m).ID = m.ID := by
  unfold sanitizeLegacyState
  cases m.Upload with
  | none => rfl
  | some u => by_cases h : tfIsNull u.Value <;> simp [h]

theorem createStep_persisted_shape (data : PolicyKeyModel)
    (cr : Except String GraphResponse) (pid : Option String)
    (ur : Except String GraphResponse) :
    (createStep data cr pid ur).persisted = none ∨
    ∃ x, (createStep data cr pid ur).persisted = some (sanitizeWriteOnlyFields x) := by
  unfold createStep
  repeat' split
  all_goals first
    | exact Or.inl rfl
    | exact Or.inr ⟨_, rfl⟩

theorem readStep_persisted_shape (st : PolicyKeyModel)
    (r : Except String GraphResponse) (pk : Bool) :
    (readStep st r pk).persisted = none ∨
    ∃ x, (readStep st r pk).persisted = some (sanitizeWriteOnlyFields x) := by
  unfold readStep
  repeat' split
  all_goals first
    | exact Or.inl rfl
    | exact Or.inr ⟨_, rfl⟩

theorem updateStep_persisted_shape (cfg st : PolicyKeyModel)
    (ur : Except String GraphResponse) :
    (updateStep cfg st ur).persisted = none ∨
    ∃ x, (updateStep cfg st ur).persisted = some (sanitizeWriteOnlyFields x) := by
  unfold updateStep
  repeat' split
  all_goals first
    | exact Or.inl rfl
    | exact Or.inr ⟨_, rfl⟩

/-! C1: the secret sanitizer and its reach. -/

/-- C1: for every KeyContainer snapshot passed through
`sanitizeWriteOnlyFields`, the result's `Upload.Value` is the null
sentinel and `Upload.ValueVersion` equals the input's; the function is
total (it is a total Lean function) and a no-op when `Upload` is nil;
and every snapshot the key-container reconciler persists (the Create,
Read and Update steps; Delete persists nothing) has a null write-only
value. -/
theorem sanitize_write_only_invariant :
    (∀ m u, m.Upload = some u →
      (sanitizeWriteOnlyFields m).Upload = some ⟨TFString.null, u.ValueVersion⟩) ∧
    (∀ m, m.Upload = none → sanitizeWriteOnlyFields m = m) ∧
    (∀ data cr pid ur s u, (createStep data cr pid ur).persisted = some s →
      s.Upload = some u → u.Value = TFString.null) ∧
    (∀ st r pk s u, (readStep st r pk).persisted = some s →
      s.Upload = some u → u.Value = TFString.null) ∧
    (∀ cfg st ur s u, (updateStep cfg st ur).persisted = some s →
      s.Upload = some u → u.Value = TFString.null) := by
  refine ⟨?_, ?_, ?_, ?_, ?_⟩
  · intro m u h
    unfold sanitizeWriteOnlyFields
    rw [h]
  · intro m h
    unfold sanitizeWriteOnlyFields
    rw [h]
  · intro data cr pid ur s u hp hu
    rcases createStep_persisted_shape data cr pid ur with h | ⟨x, h⟩
    · rw [h] at hp; exact absurd hp (by simp)
    · rw [h, Option.some.injEq] at hp
      exact sanitize_upload_null x u (by rw [hp, hu])
  · intro st r pk s u hp hu
    rcases readStep_persisted_shape st r pk with h | ⟨x, h⟩
    · rw [h] at hp; exact absurd hp (by simp)
    · rw [h, Option.some.injEq] at hp
      exact sanitize_upload_null x u (by rw [hp, hu])
  · intro cfg st ur s u hp hu
    rcases updateStep_persisted_shape cfg st ur with h | ⟨x, h⟩
    · rw [h] at hp; exact absurd hp (by simp)
    · rw [h, Option.some.injEq] at hp
      exact sanitize_upload_null x u (by rw [hp, hu])

/-- C1 witness: the sanitizer at a concrete leaked-secret snapshot. -/
theorem sanitize_write_only_invariant_witness :
    (sanitizeWriteOnlyFields
        ⟨.str "id0", .str "n0", .str "sig", some ⟨.str "leak", .int 7⟩, none⟩).Upload
      = some ⟨TFString.null, TFInt64.int 7⟩ :=
  sanitize_write_only_invariant.1 _ ⟨.str "leak", .int 7⟩ rfl

/-! C2 and C3: the upload decision engine. -/

/-- C2: the decision engine behaves as claimed when a prior upload spec
is persisted — desired 1 vs. prior 1 is a no-op with no Directory
Client call, desired 2 vs. prior 1 uploads, an absent or -1 marker
always uploads — but the claim's create case is refuted: with the prior
state absent (`PolicyKeyModel{}`, as `Create` passes) and a desired
marker of 1, the spec requires an upload while the code reaches the
no-op branch and makes no remote call, because its version-difference
disjunct additionally demands a non-nil prior upload block. -/
theorem uploadDecision_create_bug :
    uploadOrGenerateStep cUploadV1 cUploadV1 cStatePrior1 = UoGStep.noop ∧
    uploadOrGenerateStep cUploadV2 cUploadV2 cStatePrior1
      = UoGStep.request (GraphRequest.uploadSecret "kid" "sig" "s3cret") ∧
    uploadOrGenerateStep cUploadAbs cUploadAbs cStatePrior1
      = UoGStep.request (GraphRequest.uploadSecret "kid" "sig" "s3cret") ∧
    uploadOrGenerateStep cUploadM1 cUploadM1 cStatePrior1
      = UoGStep.request (GraphRequest.uploadSecret "kid" "sig" "s3cret") ∧
    specUploadRequired (some 1) none = true ∧
    uploadOrGenerateStep cUploadV1 cUploadV1 emptyModel = UoGStep.noop :=
  ⟨rfl, rfl, rfl, rfl, rfl, rfl⟩

/-- C3: the validation errors themselves behave as claimed — a marker
of -2 is rejected, and an absent secret value on a decided upload is
rejected — but the claim's "exactly when" is refuted at the same create
case as C2: with an absent prior state, a marker of 1 and an absent
secret value, an upload is required (per the spec's definition) and the
value is absent, yet the code returns the silent no-op instead of a
ValidationError. -/
theorem uploadValidation_bug :
    uploadOrGenerateStep cUploadM2 cUploadM2 cStatePrior1
      = UoGStep.validationError "value_version must be -1 or >= 0" ∧
    uploadOrGenerateStep cNullValAbs cNullValAbs emptyModel
      = UoGStep.validationError "upload.value cannot be null when upload block is specified" ∧
    specUploadRequired (some 1) none = true ∧
    tfIsNull ((cNullVal1.Upload.getD ⟨.null, .null⟩).Value) = true ∧
    uploadOrGenerateStep cNullVal1 cNullVal1 emptyModel = UoGStep.noop :=
  ⟨rfl, rfl, rfl, rfl, rfl⟩

/-! C4 and C5: the settings injector. -/

theorem ciStartsWith_refl : ∀ l : List Char, ciStartsWith l l = true := by
  intro l
  induction l with
  | nil => rfl
  | cons c cs ih => simp [ciStartsWith, ih]

theorem replaceAllCIGo_nil (pat rep : List Char) (fuel : Nat) :
    replaceAllCIGo pat rep fuel [] = [] := by
  cases fuel <;> rfl

theorem replaceAllCIGo_of_not_occurs (pat rep : List Char) :
    ∀ (fuel : Nat) (s : List Char), occursCI pat s = false →
      replaceAllCIGo pat rep fuel s = s := by
  intro fuel
  induction fuel with
  | zero => intro s _; rfl
  | succ n ih =>
    intro s h
    cases s with
    | nil => rfl
    | cons c rest =>
      rw [occursCI, Bool.or_eq_false_iff] at h
      obtain ⟨h1, h2⟩ := h
      have hp : pat.isEmpty = false := by
        cases pat with
        | nil => simp [ciStartsWith] at h1
        | cons p ps => rfl
      rw [replaceAllCIGo]
      simp only [hp, Bool.false_eq_true, if_false, h1, ih rest h2]

theorem replaceAllCI_of_not_occurs (pat rep : List Char) :
    ∀ s, occursCI pat s = false → replaceAllCI pat rep s = s :=
  fun s h => replaceAllCIGo_of_not_occurs pat rep s.length s h

theorem injectAppSettingsStep_none :
    ∀ settings : List (String × TFString),
      List.foldl injectAppSettingsStep none settings = none := by
  intro settings
  induction settings with
  | nil => rfl
  | cons kv rest ih =>
    rw [List.foldl_cons]
    exact ih

theorem injectAppSettings_plainKeys :
    ∀ (settings : List (String × TFString)) (acc : Option (List Char)) (out : List Char),
      List.foldl injectAppSettingsStep acc settings = some out →
      settings.all (fun kv => plainKey kv.1.toList) = true := by
  intro settings
  induction settings with
  | nil => intro acc out _; rfl
  | cons kv rest ih =>
    intro acc out h
    rw [List.foldl_cons] at h
    rw [List.all_cons, Bool.and_eq_true]
    refine ⟨?_, ih _ out h⟩
    cases hp : plainKey kv.1.toList with
    | true => rfl
    | false =>
      have hstep : injectAppSettingsStep acc kv = none := by
        cases acc with
        | none => rfl
        | some r =>
          rw [injectAppSettingsStep]
          rw [hp]
          simp
      rw [hstep, injectAppSettingsStep_none] at h
      exact absurd h (by simp)

theorem injectAppSettings_fixed :
    ∀ (settings : List (String × TFString)) (s : List Char),
      settings.all (fun kv => plainKey kv.1.toList) = true →
      keptPatternsAbsent settings s = true → injectAppSettings s settings = some s := by
  intro settings
  induction settings with
  | nil => intro s _ _; rfl
  | cons kv rest ih =>
    intro s hp h
    rw [List.all_cons, Bool.and_eq_true] at hp
    simp only [keptPatternsAbsent, List.all_cons, Bool.and_eq_true] at h
    obtain ⟨h1, h2⟩ := h
    rw [injectAppSettings, List.foldl_cons]
    have hstep : injectAppSettingsStep (some s) kv = some s := by
      rw [injectAppSettingsStep]
      rw [if_pos hp.1]
      by_cases hk : isNullOrEmptyTF kv.2 = true
      · rw [if_pos hk]
      · have hk' : isNullOrEmptyTF kv.2 = false := by
          revert hk; cases isNullOrEmptyTF kv.2 <;> simp
        rw [if_neg hk]
        cases hocc : occursCI (placeholder kv.1.toList) s with
        | false => rw [replaceAllCI_of_not_occurs _ _ _ hocc]
        | true => rw [hk', hocc] at h1; simp at h1
    rw [hstep]
    exact ih s hp.2 h2

theorem expandGo_no_dollar (m : List Char) :
    ∀ (fuel : Nat) (t : List Char), t.all (fun c => !(c == '$')) = true →
      expandGo m fuel t = t := by
  intro fuel
  induction fuel with
  | zero => intro t _; rfl
  | succ n ih =>
    intro t h
    cases t with
    | nil => rfl
    | cons c rest =>
      rw [List.all_cons, Bool.and_eq_true] at h
      have hc : ¬(c = '$') := by
        intro hcc
        rw [hcc] at h
        simpa using h.1
      cases rest with
      | nil => rw [expandGo, if_neg hc]
      | cons d rest2 => rw [expandGo, if_neg hc, ih (d :: rest2) h.2]

theorem expandTempl_no_dollar (m t : List Char)
    (h : t.all (fun c => !(c == '$')) = true) : expandTempl m t = t :=
  expandGo_no_dollar m t.length t h

theorem replaceAllCI_self (pat rep : List Char) (hp : pat ≠ [])
    (hd : rep.all (fun c => !(c == '$')) = true) :
    replaceAllCI pat rep pat = rep := by
  cases pat with
  | nil => exact absurd rfl hp
  | cons c cs =>
    show replaceAllCIGo (c :: cs) rep (c :: cs).length (c :: cs) = rep
    rw [List.length_cons, replaceAllCIGo]
    have h1 : ciStartsWith (c :: cs) (c :: cs) = true := ciStartsWith_refl _
    simp only [List.isEmpty_cons, Bool.false_eq_true, if_false, h1, if_true]
    rw [List.take_length]
    simp only [List.length_cons, Nat.add_sub_cancel]
    rw [List.drop_length, replaceAllCIGo_nil, List.append_nil]
    exact expandTempl_no_dollar _ _ hd

/-- C4 amended: on the modelled fragment — every setting name plain
ASCII without regex metacharacters, so the dynamically compiled pattern
is a case-insensitive literal — the injector is idempotent whenever no
kept setting's placeholder occurs (case-insensitively) in the first
output: a successful run whose output contains no kept placeholder is a
fixed point of a second run. In particular a template in which no kept
setting's placeholder occurs at all (for example one containing only
placeholders with unmapped names) is returned unchanged, preserving
those placeholders verbatim. A successful run already forces every name
to be plain, so the first part needs no extra hypothesis. Outside the
fragment the model is `none` (metacharacter names compile to different
matchers or panic); and unconditionally the original claim is false
(see the counterexample). -/
theorem injectAppSettings_idem_amended :
    ∀ (T : List Char) (settings : List (String × TFString)) (out : List Char),
      (injectAppSettings T settings = some out →
        keptPatternsAbsent settings out = true →
        injectAppSettings out settings = some out) ∧
      (settings.all (fun kv => plainKey kv.1.toList) = true →
        keptPatternsAbsent settings T = true →
        injectAppSettings T settings = some T) := by
  intro T settings out
  constructor
  · intro h hk
    exact injectAppSettings_fixed settings out
      (injectAppSettings_plainKeys settings (some T) out h) hk
  · intro hp hk
    exact injectAppSettings_fixed settings T hp hk

/-- C4 witness: re-running the injector on the substituted output of a
concrete run returns that output unchanged, and a concrete template
whose only placeholder is unmapped is returned unchanged. -/
theorem injectAppSettings_idem_amended_witness :
    injectAppSettings "<Config>12345</Config>".toList [("API_KEY", .str "12345")]
      = some "<Config>12345</Config>".toList ∧
    injectAppSettings "<a>{settings:MISS}</a>".toList [("K", .str "v")]
      = some "<a>{settings:MISS}</a>".toList :=
  ⟨(injectAppSettings_idem_amended "<Config>{settings:API_KEY}</Config>".toList
      [("API_KEY", .str "12345")] "<Config>12345</Config>".toList).1 (by decide) (by decide),
   (injectAppSettings_idem_amended "<a>{settings:MISS}</a>".toList [("K", .str "v")]
      "<a>{settings:MISS}</a>".toList).2 (by decide) (by decide)⟩

/-- C4 counterexample: idempotence fails when a kept value contains its
own placeholder case-insensitively — the key `A` is plain, so the model
is exact here: the first run turns `{settings:A}` into
`{settings:a}x`, and a second run over that output turns it into
`{settings:a}xx`, so applying the injector twice differs from applying
it once. -/
theorem injectAppSettings_idem_counterexample :
    injectAppSettings "{settings:A}".toList cSelfSettings = some "{settings:a}x".toList ∧
    injectAppSettings "{settings:a}x".toList cSelfSettings = some "{settings:a}xx".toList ∧
    "{settings:a}xx".toList ≠ "{settings:a}x".toList := by
  refine ⟨by decide, by decide, by decide⟩

/-- C5 amended: on the modelled fragment of plain, metacharacter-free
setting names (outside it the unescaped interpolation changes the match
semantics or panics in MustCompile): settings whose value is null,
unknown or empty are all skipped, leaving the template unchanged; a
single setting's pass replaces its placeholder by the value with no
re-scanning of the inserted text within that pass, provided the value
contains no `$` (which the code, contrary to the claim, interprets as a
regex expansion reference — see the counterexample); and the spec's
concrete substitution examples hold, including the case-insensitive
match. Text inserted for one setting can still be re-matched by a later
setting's pattern (counterexample), so the claim's unconditional "no
recursive re-scanning, no interpretation of the value" is false. -/
theorem injectAppSettings_literal_amended :
    ∀ (T : List Char) (settings : List (String × TFString)) (k : String) (v : List Char),
      (settings.all (fun kv => plainKey kv.1.toList) = true →
        settings.all (fun kv => isNullOrEmptyTF kv.2) = true →
        injectAppSettings T settings = some T) ∧
      (plainKey k.toList = true → v ≠ [] → v.all (fun c => !(c == '$')) = true →
        injectAppSettings (placeholder k.toList) [(k, TFString.str (String.mk v))]
          = some v) ∧
      injectAppSettings "<Config>{settings:API_KEY}</Config>".toList
          [("API_KEY", TFString.str "12345")]
        = some "<Config>12345</Config>".toList ∧
      injectAppSettings "<Config>{Settings:Api_Key}</Config>".toList
          [("API_KEY", TFString.str "12345")]
        = some "<Config>12345</Config>".toList := by
  intro T settings k v
  refine ⟨?_, ?_, by decide, by decide⟩
  · intro hp h
    apply injectAppSettings_fixed settings T hp
    simp only [keptPatternsAbsent, List.all_eq_true] at *
    intro kv hkv
    rw [h kv hkv]
    rfl
  · intro hplain hv hnd
    have hne : String.mk v ≠ "" := by
      intro hh
      apply hv
      simpa using congrArg String.data hh
    have hskip : isNullOrEmptyTF (TFString.str (String.mk v)) = false := by
      simp [isNullOrEmptyTF, hne]
    rw [injectAppSettings, List.foldl_cons, List.foldl_nil, injectAppSettingsStep]
    rw [if_pos hplain]
    simp only [hskip, Bool.false_eq_true, if_false]
    exact congrArg some
      (replaceAllCI_self (placeholder k.toList) v (by simp [placeholder]) hnd)

/-- C5 witness: a value containing its own placeholder is inserted
as-is — the pass does not re-scan its own insertion. -/
theorem injectAppSettings_literal_amended_witness :
    injectAppSettings (placeholder "A".toList)
        [("A", TFString.str (String.mk (placeholder "A".toList ++ ['x'])))]
      = some (placeholder "A".toList ++ ['x']) :=
  (injectAppSettings_literal_amended [] [] "A" (placeholder "A".toList ++ ['x'])).2.1
    (by decide) (by decide) (by decide)

/-- C5 counterexample: the value inserted for setting A is re-scanned
and rewritten by the later setting B (the output is "x", not the
literal value of A), and a value of `$0` is interpreted as a regex
expansion reference to the whole match instead of being inserted as
literal text. -/
theorem injectAppSettings_literal_counterexample :
    injectAppSettings "{settings:A}".toList
        [("A", TFString.str "{settings:B}"), ("B", TFString.str "x")] = some "x".toList ∧
    "x".toList ≠ "{settings:B}".toList ∧
    injectAppSettings "{settings:A}".toList [("A", TFString.str "$0")]
      = some "{settings:A}".toList ∧
    "{settings:A}".toList ≠ "$0".toList := by
  refine ⟨by decide, by decide, by decide, by decide⟩

/-! C6: the PolicyId extractor. -/

theorem getPolicyId_skip :
    ∀ (pre l : List XmlTok), pre.all (fun t => !isStartTok t) = true →
      getPolicyId (pre ++ l) = getPolicyId l := by
  intro pre
  induction pre with
  | nil => intro l _; rfl
  | cons t rest ih =>
    intro l h
    rw [List.all_cons, Bool.and_eq_true] at h
    cases t with
    | start n a => exact absurd h.1 (by simp [isStartTok])
    | other => exact ih l h.2

theorem scanPolicyIdAttrs_none :
    ∀ (attrs : List (String × String)) (r : String), noPolicyIdAttr attrs = true →
      scanPolicyIdAttrs r attrs = r := by
  intro attrs
  induction attrs with
  | nil => intro r _; rfl
  | cons a rest ih =>
    intro r h
    rw [noPolicyIdAttr, List.all_cons, Bool.and_eq_true] at h
    have ha : ¬(a.1 = "PolicyId") := by simpa using h.1
    rw [scanPolicyIdAttrs, List.foldl_cons, if_neg ha]
    exact ih r h.2

theorem scanPolicyIdAttrs_found :
    ∀ (a1 : List (String × String)) (r v : String) (a2 : List (String × String)),
      noPolicyIdAttr a2 = true →
      scanPolicyIdAttrs r (a1 ++ ("PolicyId", v) :: a2) = v := by
  intro a1
  induction a1 with
  | nil =>
    intro r v a2 h
    rw [scanPolicyIdAttrs, List.nil_append, List.foldl_cons, if_pos rfl]
    exact scanPolicyIdAttrs_none a2 v h
  | cons a rest ih =>
    intro r v a2 h
    rw [scanPolicyIdAttrs, List.cons_append, List.foldl_cons]
    exact ih _ v a2 h

/-- C6: `getPolicyId` returns the value of the `PolicyId` attribute of
the first start element of the token stream (the last such attribute if
several); it returns "" when the first start element has no such
attribute and when the stream holds no start element at all — which
covers the empty stream and any stream truncated by a parse error on
malformed XML, so the scan never fails; and the tokens after the first
start element (nested or later elements included) never influence the
result. -/
theorem getPolicyId_first_element :
    (∀ (pre : List XmlTok) (name : String) (a1 : List (String × String)) (v : String)
        (a2 : List (String × String)) (rest : List XmlTok),
      pre.all (fun t => !isStartTok t) = true → noPolicyIdAttr a2 = true →
      getPolicyId (pre ++ XmlTok.start name (a1 ++ ("PolicyId", v) :: a2) :: rest) = v) ∧
    (∀ (pre : List XmlTok) (name : String) (attrs : List (String × String))
        (rest : List XmlTok),
      pre.all (fun t => !isStartTok t) = true → noPolicyIdAttr attrs = true →
      getPolicyId (pre ++ XmlTok.start name attrs :: rest) = "") ∧
    (∀ toks : List XmlTok, toks.all (fun t => !isStartTok t) = true →
      getPolicyId toks = "") := by
  refine ⟨?_, ?_, ?_⟩
  · intro pre name a1 v a2 rest hpre h2
    rw [getPolicyId_skip pre _ hpre]
    exact scanPolicyIdAttrs_found a1 "" v a2 h2
  · intro pre name attrs rest hpre hattrs
    rw [getPolicyId_skip pre _ hpre]
    exact scanPolicyIdAttrs_none attrs "" hattrs
  · intro toks h
    have := getPolicyId_skip toks [] h
    rw [List.append_nil] at this
    exact this

/-- C6 witness: the spec's concrete document, preceded by non-element
tokens and followed by a nested element that also carries a `PolicyId`
attribute, which is ignored. -/
theorem getPolicyId_first_element_witness :
    getPolicyId [XmlTok.other,
      XmlTok.start "TrustFrameworkPolicy" [("PolicyId", "B2C_1A_Test")],
      XmlTok.start "Nested" [("PolicyId", "Wrong")], XmlTok.other] = "B2C_1A_Test" :=
  getPolicyId_first_element.1 [XmlTok.other] "TrustFrameworkPolicy" [] "B2C_1A_Test" []
    [XmlTok.start "Nested" [("PolicyId", "Wrong")], XmlTok.other] (by decide) (by decide)

/-! C7: Read's not-found drift handling. -/

/-- C7: when the remote fetch returns a non-success response whose body
contains the provider-specific code AADB2C90073, Read removes the
resource from state and reports no diagnostic; any other non-success
response is reported as a remote error (the Graph status) and the
resource is not removed. -/
theorem read_notfound_drift :
    ∀ (st : PolicyKeyModel) (r : GraphResponse) (pk : Bool), r.status ≠ 200 →
      (strContains r.body "AADB2C90073" = true →
        readStep st (Except.ok r) pk = ⟨[], none, true⟩) ∧
      (strContains r.body "AADB2C90073" = false →
        Diag.mk ("Graph returned " ++ r.statusText) r.body ∈ (readStep st (Except.ok r) pk).diags ∧
        (readStep st (Except.ok r) pk).removed = false) := by
  intro st r pk h
  constructor
  · intro hc
    rw [readStep, if_pos ⟨h, hc⟩]
  · intro hc
    have hcond : ¬(r.status ≠ 200 ∧ strContains r.body "AADB2C90073" = true) := by
      intro hcontra
      rw [hc] at hcontra
      exact absurd hcontra.2 (by simp)
    rw [readStep, if_neg hcond]
    cases pk with
    | false => simp [h]
    | true => simp [h]

/-- C7 witness: a concrete 404-style response carrying the not-found
code is removed from state without error, via the theorem. -/
theorem read_notfound_drift_witness :
    readStep emptyModel (Except.ok ⟨404, "404 Not Found", "code AADB2C90073 found"⟩) true
      = ⟨[], none, true⟩ :=
  (read_notfound_drift emptyModel ⟨404, "404 Not Found", "code AADB2C90073 found"⟩ true
    (by decide)).1 (by decide)

/-! C8: Create's abort and partial-failure persistence. -/

/-- C8: a transport failure or a non-201 status from the create-keyset
call aborts Create with an error and nothing is persisted; when the
keyset is created (201, decodable non-empty id) but provisioning fails,
the error is reported and the sanitized snapshot carrying the assigned
remote identifier is still persisted. -/
theorem create_partial_failure_policy :
    (∀ (data : PolicyKeyModel) (e : String) (pid : Option String)
        (ur : Except String GraphResponse),
      (createStep data (Except.error e) pid ur).persisted = none ∧
      Diag.mk "Create keyset failed" e ∈ (createStep data (Except.error e) pid ur).diags) ∧
    (∀ (data : PolicyKeyModel) (r : GraphResponse) (pid : Option String)
        (ur : Except String GraphResponse), r.status ≠ 201 →
      (createStep data (Except.ok r) pid ur).persisted = none ∧
      Diag.mk "Create keyset failed" r.body ∈ (createStep data (Except.ok r) pid ur).diags) ∧
    (∀ (data : PolicyKeyModel) (r : GraphResponse) (id : String)
        (ur : Except String GraphResponse) (msg : String),
      r.status = 201 → id ≠ "" →
      uploadOrGenerateResult { data with ID := TFString.str id }
          { data with ID := TFString.str id } emptyModel ur = some msg →
      (createStep data (Except.ok r) (some id) ur).persisted
          = some (sanitizeWriteOnlyFields { data with ID := TFString.str id }) ∧
      (sanitizeWriteOnlyFields { data with ID := TFString.str id }).ID = TFString.str id ∧
      Diag.mk "Error creating or uploading policy key" msg
        ∈ (createStep data (Except.ok r) (some id) ur).diags) := by
  refine ⟨?_, ?_, ?_⟩
  · intro data e pid ur
    exact ⟨rfl, List.mem_singleton.mpr rfl⟩
  · intro data r pid ur h
    rw [createStep.eq_def]
    dsimp only
    rw [if_pos h]
    exact ⟨rfl, List.mem_singleton.mpr rfl⟩
  · intro data r id ur msg h201 hid hfail
    have hns : ¬(r.status ≠ 201) := by rw [h201]; simp
    rw [createStep.eq_def]
    dsimp only
    rw [if_neg hns, if_neg hid, hfail]
    exact ⟨rfl, sanitize_keeps_ID _, List.mem_singleton.mpr rfl⟩

/-- C8 witness: a created keyset with id "abc" whose provisioning call
dies on transport keeps the id in persisted state, via the theorem. -/
theorem create_partial_failure_policy_witness :
    (createStep cUploadAbs (Except.ok ⟨201, "201 Created", "ok"⟩) (some "abc")
        (Except.error "boom")).persisted
      = some (sanitizeWriteOnlyFields { cUploadAbs with ID := TFString.str "abc" }) ∧
    Diag.mk "Error creating or uploading policy key" "boom"
      ∈ (createStep cUploadAbs (Except.ok ⟨201, "201 Created", "ok"⟩) (some "abc")
          (Except.error "boom")).diags :=
  ⟨(create_partial_failure_policy.2.2 cUploadAbs ⟨201, "201 Created", "ok"⟩ "abc"
      (Except.error "boom") "boom" rfl (by decide) rfl).1,
   (create_partial_failure_policy.2.2 cUploadAbs ⟨201, "201 Created", "ok"⟩ "abc"
      (Except.error "boom") "boom" rfl (by decide) rfl).2.2⟩

/-! C9: Delete. -/

/-- C9 counterexample: with the remote identifier absent from state,
Delete still issues the delete-container call (with the empty id
interpolated into the URL) and, on the resulting 404, reports an
error — the claim's "no remote call, no error when the identifier is
absent" is false: the source has no identifier-presence check. -/
theorem delete_absent_id_counterexample :
    (deleteStep emptyModel (Except.ok ⟨404, "404 Not Found", "nf"⟩)).calls = [""] ∧
    (deleteStep emptyModel (Except.ok ⟨404, "404 Not Found", "nf"⟩)).calls ≠ [] ∧
    (deleteStep emptyModel (Except.ok ⟨404, "404 Not Found", "nf"⟩)).diags ≠ [] := by
  refine ⟨by decide, by decide, by decide⟩

/-- C9 amended: Delete always issues exactly one delete-container call,
with the state's identifier (the empty string when it is absent), and
reports no error exactly when the response is a 204 No Content; any
other status, and any transport failure, is reported as an error. -/
theorem delete_always_calls :
    ∀ (st : PolicyKeyModel) (resp : Except String GraphResponse),
      (deleteStep st resp).calls = [valueString st.ID] ∧
      ((deleteStep st resp).diags = [] ↔ ∃ r, resp = Except.ok r ∧ r.status = 204) := by
  intro st resp
  have hid : valueString (sanitizeLegacyState st).ID = valueString st.ID := by
    rw [sanitizeLegacy_keeps_ID]
  cases resp with
  | error e =>
    refine ⟨by rw [deleteStep, hid], ?_⟩
    constructor
    · intro h
      exact absurd h (by rw [deleteStep]; simp)
    · rintro ⟨r, hr, _⟩
      exact absurd hr (by simp)
  | ok r =>
    by_cases h : r.status = 204
    · have hns : ¬(r.status ≠ 204) := by rw [h]; simp
      refine ⟨by rw [deleteStep, if_neg hns, hid], ?_⟩
      constructor
      · intro _
        exact ⟨r, rfl, h⟩
      · intro _
        rw [deleteStep, if_neg hns]
    · have hne : r.status ≠ 204 := h
      refine ⟨by rw [deleteStep, if_pos hne, hid], ?_⟩
      constructor
      · intro hd
        exact absurd hd (by rw [deleteStep, if_pos hne]; simp)
      · rintro ⟨r', hr', h204⟩
        rw [Except.ok.injEq] at hr'
        exact absurd (hr' ▸ h204) h

/-- C9 witness: a present identifier with a 204 response is called and
reports no error, via the amended theorem. -/
theorem delete_always_calls_witness :
    (deleteStep cUploadV1 (Except.ok ⟨204, "204 No Content", ""⟩)).calls = ["kid"] ∧
    (deleteStep cUploadV1 (Except.ok ⟨204, "204 No Content", ""⟩)).diags = [] :=
  ⟨(delete_always_calls cUploadV1 (Except.ok ⟨204, "204 No Content", ""⟩)).1,
   (delete_always_calls cUploadV1 (Except.ok ⟨204, "204 No Content", ""⟩)).2.mpr
     ⟨⟨204, "204 No Content", ""⟩, rfl, rfl⟩⟩

/-! C10: the MustCompile panic. -/

/-- C10: the setting name is interpolated unescaped into the regex
pattern, so a name with an unbalanced `(` yields a pattern that cannot
compile and `regexp.MustCompile` panics: in the checked model the
injector fails (returns `none`) for the key `(` even though a benign
key succeeds on the same template. -/
theorem injectAppSettings_mustcompile_panic :
    goPatternOk "(".toList = false ∧
    injectAppSettingsChecked "<a>".toList [("(", TFString.str "x")] = none ∧
    goPatternOk "API_KEY".toList = true ∧
    injectAppSettingsChecked "<a>".toList [("API_KEY", TFString.str "x")]
      = some "<a>".toList := by
  refine ⟨by decide, by decide, by decide, by decide⟩

end B2C
